import Mathlib

/-!
Verification of the `useRestoreState` hook
(`src/src/hooks/useRestoreState/index.tsx`).

The hook watches a piece of application data, persists a projected subset
of it to a storage backend, and offers to restore previously stored data.
We embed the JavaScript value universe as an inductive type and translate
the hook's pure decision functions (`isValid`, the `requiredData`
projection, `canStore`, `triggerRestore`, `canRestore`, the debounced
restore body) directly from the source.  JavaScript objects are modelled
as association lists of own enumerable properties in insertion order;
JavaScript objects never carry a duplicate key, so lemmas that need it
assume `Nodup` on the key list.
-/

/-- Universe of JavaScript values handled by the hook.  Maps and sets are
carried with their contents (the hook only ever consults their size, and
`JSON.stringify` serialises both as the empty object). -/
inductive JSValue where
  | vUndefined : JSValue
  | vNull : JSValue
  | vBool : Bool → JSValue
  | vNum : Int → JSValue
  | vStr : String → JSValue
  | vArr : List JSValue → JSValue
  | vObj : List (String × JSValue) → JSValue
  | vMap : List (JSValue × JSValue) → JSValue
  | vSet : List JSValue → JSValue

/-- JavaScript truthiness (`!!v`). -/
def truthy : JSValue → Bool
  | .vUndefined => false
  | .vNull => false
  | .vBool b => b
  | .vNum n => n != 0
  | .vStr s => s != ""
  | .vArr _ => true
  | .vObj _ => true
  | .vMap _ => true
  | .vSet _ => true

/-- The source's `typeOf`: `Object.prototype.toString.call(x).slice(8,-1).toLowerCase()`. -/
def typeOf : JSValue → String
  | .vUndefined => "undefined"
  | .vNull => "null"
  | .vBool _ => "boolean"
  | .vNum _ => "number"
  | .vStr _ => "string"
  | .vArr _ => "array"
  | .vObj _ => "object"
  | .vMap _ => "map"
  | .vSet _ => "set"

/-- The JavaScript `typeof` operator (used in the `requiredData` guard):
`null`, arrays, plain objects, maps and sets all report `"object"`. -/
def typeofOp : JSValue → String
  | .vUndefined => "undefined"
  | .vBool _ => "boolean"
  | .vNum _ => "number"
  | .vStr _ => "string"
  | _ => "object"

mutual

/-- The source's `isValid`: recursive over plain-object property values,
element-truthiness (not recursion) over arrays, size only for maps and
sets, plain truthiness otherwise. -/
def isValid : JSValue → Bool
  | .vObj fields => isValidFields fields
  | .vArr elems => (elems.length != 0) && allTruthy elems
  | .vMap entries => entries.length != 0
  | .vSet elems => elems.length != 0
  | v => truthy v

/-- `Object.keys(object).every((key) => isValid(object[key]))`. -/
def isValidFields : List (String × JSValue) → Bool
  | [] => true
  | kv :: rest => isValid kv.2 && isValidFields rest

/-- `array.every((i) => !!i)`. -/
def allTruthy : List JSValue → Bool
  | [] => true
  | v :: rest => truthy v && allTruthy rest

end

/-- JSON string escaping for quotes and backslashes (the only characters
the development ever puts in strings that JSON escapes). -/
def jsonQuote (s : String) : String :=
  "\"" ++ String.join (s.toList.map (fun c =>
    if c = '"' then "\\\"" else if c = '\\' then "\\\\" else c.toString)) ++ "\""

mutual

/-- Model of `JSON.stringify`.  Returns `none` where JavaScript returns
the value `undefined` (stringifying `undefined` itself).  Properties whose
value is `undefined` are dropped from objects; inside arrays `undefined`
serialises as `null`; maps and sets serialise as the empty object. -/
def stringifyJSON : JSValue → Option String
  | .vUndefined => none
  | .vNull => some "null"
  | .vBool b => some (cond b "true" "false")
  | .vNum n => some (toString n)
  | .vStr s => some (jsonQuote s)
  | .vArr es => some ("[" ++ String.intercalate "," (stringifyArr es) ++ "]")
  | .vObj fs => some ("\x7b" ++ String.intercalate "," (stringifyFields fs) ++ "\x7d")
  | .vMap _ => some "\x7b\x7d"
  | .vSet _ => some "\x7b\x7d"

/-- Element serialisations of an array, `undefined` becoming `null`. -/
def stringifyArr : List JSValue → List String
  | [] => []
  | e :: rest => ((stringifyJSON e).getD "null") :: stringifyArr rest

/-- Serialised `"key":value` parts of an object, dropping
`undefined`-valued properties. -/
def stringifyFields : List (String × JSValue) → List String
  | [] => []
  | kv :: rest =>
    match stringifyJSON kv.2 with
    | none => stringifyFields rest
    | some sv => (jsonQuote kv.1 ++ ":" ++ sv) :: stringifyFields rest

end

/-- The difference check both gates use:
`JSON.stringify(a) !== JSON.stringify(b)`. -/
def isDifferentJSON (a b : JSValue) : Bool :=
  stringifyJSON a != stringifyJSON b

/-- Property read `v[k]`: first matching own property of a plain object,
`undefined` otherwise. -/
def lookupField (fs : List (String × JSValue)) (k : String) : Option JSValue :=
  (fs.find? (fun kv => kv.1 == k)).map (fun kv => kv.2)

/-- Property read on an arbitrary value: `undefined` outside plain objects. -/
def getProp (v : JSValue) (k : String) : JSValue :=
  match v with
  | .vObj fs => (lookupField fs k).getD .vUndefined
  | _ => .vUndefined

/-- Property assignment `obj[k] = v` on the own-property list: overwrite
the (unique, in JavaScript) existing entry in place, else append. -/
def objSet : List (String × JSValue) → String → JSValue → List (String × JSValue)
  | [], k, v => [(k, v)]
  | kv0 :: rest, k, v =>
    if kv0.1 == k then (k, v) :: rest else kv0 :: objSet rest k v

/-- Run a list of property assignments left to right, starting from the
empty object literal. -/
def buildObj (pairs : List (String × JSValue)) : List (String × JSValue) :=
  pairs.foldl (fun acc kv => objSet acc kv.1 kv.2) []

/-- The source's `requiredData` memo: when `newData` is truthy, of
`typeof` `"object"`, and `required` is an array (`Array.isArray`), build a
fresh object by assigning `requiredData[k] = newData[k]` for each listed
key; otherwise hand back `newData` itself. -/
def requiredData (newData : JSValue) (required : Option (List String)) : JSValue :=
  match required with
  | some keys =>
    if truthy newData && (typeofOp newData == "object") then
      .vObj (buildObj (keys.map (fun k => (k, getProp newData k))))
    else newData
  | none => newData

/-- Own enumerable properties contributed by `...v` inside an object
literal: objects contribute their properties, arrays and strings their
indexed elements, everything else nothing. -/
def spreadFields : JSValue → List (String × JSValue)
  | .vObj fs => fs
  | .vArr es => es.enum.map (fun p => (toString p.1, p.2))
  | .vStr s => s.toList.enum.map (fun p => (toString p.1, .vStr p.2.toString))
  | _ => []

/-- The reconciliation `{ ...fresh, ...stored }` handed to the restore
callback. -/
def mergeSpread (fresh stored : JSValue) : JSValue :=
  .vObj (buildObj (spreadFields fresh ++ spreadFields stored))

/-- The `store` configuration object.  `hasWhen` records whether `when`
appears among the object's own property names (`objectHasKey`), which the
source distinguishes from its value being falsy. -/
structure StoreConfig where
  data : JSValue
  required : Option (List String)
  hasWhen : Bool
  whenVal : JSValue
  title : String

/-- The `restore` configuration object.  `prompt = none` models the field
being absent or `undefined`, so the destructuring default applies. -/
structure RestoreConfig where
  hasWhen : Bool
  whenVal : JSValue
  prompt : Option String

/-- The hook's props object. -/
structure HookProps where
  key : String
  hasWhen : Bool
  whenVal : JSValue
  mode : String
  openFlag : Bool
  store : StoreConfig
  restore : RestoreConfig
  test : Bool

/-- `defaultPromot` from the source (sic). -/
def defaultPromot : String := "你有缓存数据，是否填充？"

/-- Prompt after destructuring: `prompt = defaultPromot`. -/
def effectivePrompt (rc : RestoreConfig) : String :=
  rc.prompt.getD defaultPromot

/-- The extra store condition: an explicitly supplied `store.when` wins
(whatever its value), else an explicitly supplied top-level `when`, else
`true`. -/
def extraStoreCond (p : HookProps) : Bool :=
  if p.store.hasWhen then truthy p.store.whenVal
  else if p.hasWhen then truthy p.whenVal
  else true

/-- The source's `canStore`: valid projected data, difference from the
stored data, and the extra condition. -/
def canStore (p : HookProps) (storedData : JSValue) : Bool :=
  let rd := requiredData p.store.data p.store.required
  isValid rd && isDifferentJSON storedData rd && extraStoreCond p

/-- The source's `triggerRestore`: same two-level `when` resolution,
sourced from the `restore` configuration first. -/
def triggerRestore (p : HookProps) : Bool :=
  if p.restore.hasWhen then truthy p.restore.whenVal
  else if p.hasWhen then truthy p.whenVal
  else true

/-- The source's `canRestore`: truthy stored data that differs from the
projected data. -/
def canRestore (storedData projected : JSValue) : Bool :=
  truthy storedData && isDifferentJSON storedData projected

/-- Observable outcome of one run of the debounced restore body:
which prompt (if any) was handed to `confirm`, and which value (if any)
the restore callback received. -/
structure RestoreOutcome where
  confirmPrompt : Option String
  callbackArg : Option JSValue

/-- The debounced restore body `restoreStateDeb`, with the confirmation
oracle's answer supplied as `confirmAnswer`.  On `test` the callback runs
immediately with `{ ...newData, ...storedData }` and `confirm` is never
consulted; otherwise `confirm(prompt)` gates the callback. -/
def restoreStateDeb (p : HookProps) (storedData : JSValue)
    (confirmAnswer : Bool) : RestoreOutcome :=
  if triggerRestore p &&
      canRestore storedData (requiredData p.store.data p.store.required) then
    if p.test then
      ⟨none, some (mergeSpread p.store.data storedData)⟩
    else if confirmAnswer then
      ⟨some (effectivePrompt p.restore), some (mergeSpread p.store.data storedData)⟩
    else
      ⟨some (effectivePrompt p.restore), none⟩
  else ⟨none, none⟩

/-- Whether `storageHooks.get(mode)` finds a backend. -/
def storageHookFound (mode : String) : Bool :=
  mode == "session" || mode == "local"

/-- The ref cell `storageHookKey = useRef(key)`. -/
structure MutableRef where
  current : String

/-- String conversion a template literal applies to the ref object: a
plain object without a custom `toString` always prints as
`[object Object]`, whatever `current` holds. -/
def refTemplateString (_ : MutableRef) : String := "[object Object]"

/-- The tag of the catch handler's log line,
`` `useRestoreState-${storageHookKey}` `` — note the interpolation of the
ref object itself, not `storageHookKey.current`. -/
def catchLogTag (r : MutableRef) : String :=
  "useRestoreState-" ++ refTemplateString r

/-- Observable outcome of one evaluation of the whole hook body. -/
structure HookRun where
  inert : Bool
  errorLog : Option (String × String)
  storeWrite : Option JSValue
  restoreOutcome : Option RestoreOutcome

/-- One evaluation of `useRestoreState`.  `backendRead` is the storage
hook call inside the `try` block, which either yields the stored value or
throws.  An early return makes the instance inert; a thrown exception is
caught at the instance boundary, logged with the `catchLogTag`, and also
leaves the instance inert.  The return type is total: no exception
escapes to the caller. -/
def useRestoreStateRun (p : HookProps) (backendRead : Except String JSValue)
    (confirmAnswer : Bool) : HookRun :=
  if !p.openFlag || !storageHookFound p.mode then
    ⟨true, none, none, none⟩
  else
    match backendRead with
    | .error e => ⟨true, some (catchLogTag ⟨p.key⟩, e), none, none⟩
    | .ok storedData =>
      ⟨false, none,
        (if canStore p storedData then
          some (requiredData p.store.data p.store.required) else none),
        some (restoreStateDeb p storedData confirmAnswer)⟩

/-! ## Helper lemmas -/

theorem isValidFields_eq_all (fs : List (String × JSValue)) :
    isValidFields fs = fs.all (fun kv => isValid kv.2) := by
  induction fs with
  | nil => rfl
  | cons kv rest ih => simp [isValidFields, List.all_cons, ih]

theorem allTruthy_eq_all (es : List JSValue) :
    allTruthy es = es.all truthy := by
  induction es with
  | nil => rfl
  | cons v rest ih => simp [allTruthy, List.all_cons, ih]

theorem length_ne_zero_eq_not_isEmpty (es : List JSValue) :
    (es.length != 0) = !es.isEmpty := by
  cases es <;> rfl

/-! ## C3: the validity checker -/

/-- C3: `isValid` is recursive over plain-object property values (the
empty object is valid), checks arrays for non-emptiness plus element
truthiness without recursing, checks maps and sets by size only, and
falls back to truthiness for every other value. -/
theorem isValid_characterisation :
    (∀ fs : List (String × JSValue),
      isValid (.vObj fs) = fs.all (fun kv => isValid kv.2)) ∧
    (∀ es : List JSValue, isValid (.vArr es) = (!es.isEmpty && es.all truthy)) ∧
    (∀ m : List (JSValue × JSValue), isValid (.vMap m) = (m.length != 0)) ∧
    (∀ s : List JSValue, isValid (.vSet s) = (s.length != 0)) ∧
    (∀ s : String, isValid (.vStr s) = truthy (.vStr s)) ∧
    (∀ n : Int, isValid (.vNum n) = truthy (.vNum n)) ∧
    (∀ b : Bool, isValid (.vBool b) = b) ∧
    isValid .vNull = false ∧
    isValid .vUndefined = false ∧
    isValid (.vObj []) = true ∧
    isValid (.vArr []) = false ∧
    isValid (.vArr [.vNum 0]) = false ∧
    isValid (.vMap [(.vNum 1, .vObj [("x", .vNum 0)])]) = true := by
  refine ⟨?_, ?_, ?_, ?_, ?_, ?_, ?_, rfl, rfl, rfl, rfl, by decide, rfl⟩
  · intro fs; rw [show isValid (.vObj fs) = isValidFields fs from rfl,
      isValidFields_eq_all]
  · intro es
    rw [show isValid (.vArr es) = ((es.length != 0) && allTruthy es) from rfl,
      allTruthy_eq_all, length_ne_zero_eq_not_isEmpty]
  · intro m; rfl
  · intro s; rfl
  · intro s; rfl
  · intro n; rfl
  · intro b; rfl

/-! ## C1: the store gate -/

/-- Restore configuration with every optional field absent. -/
def plainRestore : RestoreConfig :=
  { hasWhen := false, whenVal := .vUndefined, prompt := none }

/-- Configuration whose store object explicitly supplies a truthy `when`
while the top level explicitly supplies a falsy `when`. -/
def cfgNestedTrueTopFalse : HookProps :=
  { key := "k1", hasWhen := true, whenVal := .vBool false, mode := "session",
    openFlag := true,
    store := { data := .vObj [("a", .vNum 1)], required := none,
               hasWhen := true, whenVal := .vBool true, title := "" },
    restore := plainRestore, test := false }

/-- C1 counterexample: with valid, different data, a truthy `store.when`
and an explicitly supplied falsy top-level `when`, `canStore` is `true`,
refuting the claim that `canStore` is false whenever any
explicitly-supplied `when` (nested or top-level) is falsy. -/
theorem canStore_top_when_falsy_cex :
    cfgNestedTrueTopFalse.hasWhen = true ∧
    truthy cfgNestedTrueTopFalse.whenVal = false ∧
    isValid (requiredData cfgNestedTrueTopFalse.store.data
      cfgNestedTrueTopFalse.store.required) = true ∧
    isDifferentJSON .vUndefined (requiredData cfgNestedTrueTopFalse.store.data
      cfgNestedTrueTopFalse.store.required) = true ∧
    canStore cfgNestedTrueTopFalse .vUndefined = true := by
  refine ⟨rfl, rfl, rfl, by decide, by decide⟩

/-- C1 amended: `canStore` is the conjunction of validity of the
projected data, difference from the stored data, and the extra condition
resolved in order (`store.when` if explicitly supplied, else the
top-level `when` if explicitly supplied, else `true`); consequently
`canStore` is false whenever the *applicable* explicitly-supplied `when`
is falsy — `store.when` when it is supplied, else the top-level `when`. -/
theorem canStore_characterisation (p : HookProps) (stored : JSValue) :
    canStore p stored =
      (isValid (requiredData p.store.data p.store.required) &&
       isDifferentJSON stored (requiredData p.store.data p.store.required) &&
       (if p.store.hasWhen then truthy p.store.whenVal
        else if p.hasWhen then truthy p.whenVal else true)) ∧
    (p.store.hasWhen = true → truthy p.store.whenVal = false →
      canStore p stored = false) ∧
    (p.store.hasWhen = false → p.hasWhen = true → truthy p.whenVal = false →
      canStore p stored = false) := by
  refine ⟨rfl, ?_, ?_⟩
  · intro h1 h2
    simp [canStore, extraStoreCond, h1, h2]
  · intro h1 h2 h3
    simp [canStore, extraStoreCond, h1, h2, h3]

/-- Configuration whose store object supplies no `when` while the top
level explicitly supplies a falsy one. -/
def cfgTopFalseOnly : HookProps :=
  { key := "k2", hasWhen := true, whenVal := .vNum 0, mode := "session",
    openFlag := true,
    store := { data := .vObj [("a", .vNum 1)], required := none,
               hasWhen := false, whenVal := .vUndefined, title := "" },
    restore := plainRestore, test := false }

/-- Configuration whose store object explicitly supplies a falsy `when`. -/
def cfgNestedFalse : HookProps :=
  { key := "k3", hasWhen := false, whenVal := .vUndefined, mode := "session",
    openFlag := true,
    store := { data := .vObj [("a", .vNum 1)], required := none,
               hasWhen := true, whenVal := .vBool false, title := "" },
    restore := plainRestore, test := false }

/-- Witness for the store-gate characterisation: a supplied falsy
`store.when`, and a supplied falsy top-level `when` with no nested one,
each force `canStore` to `false` at concrete configurations. -/
theorem canStore_characterisation_witness :
    canStore cfgNestedFalse .vUndefined = false ∧
    canStore cfgTopFalseOnly .vUndefined = false :=
  ⟨(canStore_characterisation cfgNestedFalse .vUndefined).2.1 rfl rfl,
   (canStore_characterisation cfgTopFalseOnly .vUndefined).2.2 rfl rfl rfl⟩

/-! ## C2: the restore gate -/

/-- C2: `canRestore` is exactly truthiness of the stored value conjoined
with structural (serialised) difference from the projected value, so an
`undefined` stored value can never restore; and the restore callback path
executes exactly under `triggerRestore && canRestore` (together with the
test flag or an affirmative oracle answer), where `triggerRestore`
resolves `restore.when` first, then the top-level `when`, else `true`. -/
theorem canRestore_characterisation (p : HookProps) (stored proj : JSValue)
    (ans : Bool) :
    canRestore stored proj = (truthy stored && isDifferentJSON stored proj) ∧
    canRestore .vUndefined proj = false ∧
    triggerRestore p =
      (if p.restore.hasWhen then truthy p.restore.whenVal
       else if p.hasWhen then truthy p.whenVal else true) ∧
    (restoreStateDeb p stored ans).callbackArg.isSome =
      (triggerRestore p &&
       canRestore stored (requiredData p.store.data p.store.required) &&
       (p.test || ans)) := by
  refine ⟨rfl, rfl, rfl, ?_⟩
  unfold restoreStateDeb
  cases h1 : triggerRestore p &&
      canRestore stored (requiredData p.store.data p.store.required) <;>
    cases ht : p.test <;> cases ans <;> simp [h1, ht]

/-! ## C7: the confirmation flow -/

/-- C7: when restoration fires, the `test` flag routes the merged result
straight to the callback with the oracle never consulted; otherwise the
oracle receives the effective prompt and the callback runs exactly on an
affirmative answer. -/
theorem restore_confirmation_flow (p : HookProps) (stored : JSValue)
    (ans : Bool) :
    (restoreStateDeb p stored ans).confirmPrompt =
      (if triggerRestore p &&
          canRestore stored (requiredData p.store.data p.store.required) &&
          !p.test
       then some (effectivePrompt p.restore) else none) ∧
    (restoreStateDeb p stored ans).callbackArg =
      (if triggerRestore p &&
          canRestore stored (requiredData p.store.data p.store.required) &&
          (p.test || ans)
       then some (mergeSpread p.store.data stored) else none) := by
  unfold restoreStateDeb
  cases h1 : triggerRestore p &&
      canRestore stored (requiredData p.store.data p.store.required) <;>
    cases ht : p.test <;> cases ans <;> simp [h1, ht]

/-! ## C9: the default prompt -/

/-- Minimal open configuration with no `when` fields, no required list,
no supplied prompt, and `test` off. -/
def cfgNoPrompt : HookProps :=
  { key := "k9", hasWhen := false, whenVal := .vUndefined, mode := "session",
    openFlag := true,
    store := { data := .vObj [("name", .vStr "x")], required := none,
               hasWhen := false, whenVal := .vUndefined, title := "" },
    restore := plainRestore, test := false }

/-- C9 counterexample: with no prompt supplied, a firing restoration
hands the oracle the Chinese source string `defaultPromot`, which is not
the English sentence the claim states. -/
theorem default_prompt_not_english_cex :
    (restoreStateDeb cfgNoPrompt (.vObj [("name", .vStr "y")]) true).confirmPrompt =
      some "你有缓存数据，是否填充？" ∧
    "你有缓存数据，是否填充？" ≠ "You have cached data, fill it in?" := by
  exact ⟨by decide, by decide⟩

/-- C9 amended: when the restore configuration supplies no prompt, the
string handed to the confirmation oracle (whenever one is handed at all)
is `defaultPromot`, the Chinese sentence `"你有缓存数据，是否填充？"`. -/
theorem default_prompt_value (p : HookProps) (stored : JSValue) (ans : Bool)
    (hp : p.restore.prompt = none) :
    (restoreStateDeb p stored ans).confirmPrompt = none ∨
    (restoreStateDeb p stored ans).confirmPrompt =
      some "你有缓存数据，是否填充？" := by
  unfold restoreStateDeb
  cases h1 : triggerRestore p &&
      canRestore stored (requiredData p.store.data p.store.required) <;>
    cases ht : p.test <;> cases ans <;>
    simp [h1, ht, effectivePrompt, hp, defaultPromot]

/-- Witness for the amended default-prompt statement at a firing concrete
configuration. -/
theorem default_prompt_value_witness :
    (restoreStateDeb cfgNoPrompt (.vObj [("name", .vStr "y")]) true).confirmPrompt =
      none ∨
    (restoreStateDeb cfgNoPrompt (.vObj [("name", .vStr "y")]) true).confirmPrompt =
      some "你有缓存数据，是否填充？" :=
  default_prompt_value cfgNoPrompt (.vObj [("name", .vStr "y")]) true rfl

/-! ## C5: how the gates compare values -/

/-- Object with keys `a`, `b` in that order. -/
def objAB : JSValue := .vObj [("a", .vNum 1), ("b", .vNum 2)]

/-- The same key/value pairs listed in the opposite order. -/
def objBA : JSValue := .vObj [("b", .vNum 2), ("a", .vNum 1)]

/-- Open configuration watching `objAB` with no projection and no gating
conditions. -/
def cfgWatchAB : HookProps :=
  { key := "k5", hasWhen := false, whenVal := .vUndefined, mode := "session",
    openFlag := true,
    store := { data := objAB, required := none,
               hasWhen := false, whenVal := .vUndefined, title := "" },
    restore := plainRestore, test := false }

/-- C5 counterexample: the gates compare serialised forms, and
`JSON.stringify` is order-sensitive for object keys, so two objects with
the same key/value pairs in different orders are treated as structurally
different — both the restore gate and the store gate fire on them,
refuting the claimed key-order insensitivity. -/
theorem key_order_sensitivity_cex :
    stringifyJSON objAB ≠ stringifyJSON objBA ∧
    canRestore objBA objAB = true ∧
    canStore cfgWatchAB objBA = true := by
  refine ⟨by decide, by decide, by decide⟩

/-- C5 amended: both gates compare Projected Data and Stored Data by
their `JSON.stringify` serialisations — a deep value comparison, never an
identity comparison — which is order-sensitive for arrays AND for object
keys: equal-pairs-different-order objects count as different, reordered
arrays count as different, and equal serialisations count as equal. -/
theorem comparison_is_serialisation (p : HookProps) (stored proj : JSValue) :
    canStore p stored =
      (isValid (requiredData p.store.data p.store.required) &&
       isDifferentJSON stored (requiredData p.store.data p.store.required) &&
       extraStoreCond p) ∧
    canRestore stored proj = (truthy stored && isDifferentJSON stored proj) ∧
    isDifferentJSON stored proj = (stringifyJSON stored != stringifyJSON proj) ∧
    isDifferentJSON objAB objBA = true ∧
    isDifferentJSON (.vArr [.vNum 1, .vNum 2]) (.vArr [.vNum 2, .vNum 1]) = true ∧
    isDifferentJSON objAB (.vObj [("a", .vNum 1), ("b", .vNum 2)]) = false := by
  exact ⟨rfl, rfl, rfl, by decide, by decide, by decide⟩

/-! ## Association-list lemmas for object construction -/

theorem objSet_append_of_forall_ne (fs : List (String × JSValue)) (k : String)
    (v : JSValue) (h : ∀ kv ∈ fs, kv.1 ≠ k) :
    objSet fs k v = fs ++ [(k, v)] := by
  induction fs with
  | nil => rfl
  | cons kv0 rest ih =>
    have h0 : kv0.1 ≠ k := h kv0 (List.mem_cons_self _ _)
    simp [objSet, h0, ih (fun kv hm => h kv (List.mem_cons_of_mem _ hm))]

theorem foldl_objSet_fresh (pairs : List (String × JSValue)) :
    ∀ init : List (String × JSValue),
    (∀ kv ∈ pairs, ∀ kv0 ∈ init, kv0.1 ≠ kv.1) →
    (pairs.map Prod.fst).Nodup →
    pairs.foldl (fun acc kv => objSet acc kv.1 kv.2) init = init ++ pairs := by
  induction pairs with
  | nil => intro init _ _; simp
  | cons kv rest ih =>
    intro init hd hnd
    rw [List.foldl_cons,
      objSet_append_of_forall_ne init kv.1 kv.2
        (fun kv0 h0 => hd kv (List.mem_cons_self _ _) kv0 h0)]
    rw [List.map_cons, List.nodup_cons] at hnd
    rw [ih (init ++ [(kv.1, kv.2)])
        (fun kv1 h1 kv0 h0 => by
          rcases List.mem_append.mp h0 with h0a | h0b
          · exact hd kv1 (List.mem_cons_of_mem _ h1) kv0 h0a
          · have : kv0 = (kv.1, kv.2) := by simpa using h0b
            subst this
            intro hcontra
            exact hnd.1 (hcontra ▸ List.mem_map_of_mem Prod.fst h1))
        hnd.2]
    simp

theorem buildObj_nodup_id (pairs : List (String × JSValue))
    (hnd : (pairs.map Prod.fst).Nodup) : buildObj pairs = pairs := by
  unfold buildObj
  simpa using foldl_objSet_fresh pairs [] (by simp) hnd

/-! ## C6: the projection -/

/-- C6 counterexample: with object data and an explicitly supplied empty
required list, the projection is the empty object, not the data
unchanged (`Array.isArray([])` holds, so the projecting branch runs). -/
theorem requiredData_empty_list_cex :
    requiredData (.vObj [("a", .vNum 1)]) (some []) = .vObj [] ∧
    JSValue.vObj [] ≠ .vObj [("a", .vNum 1)] := by
  refine ⟨rfl, ?_⟩
  simp

/-- C6 amended: when the data is truthy of JavaScript `typeof`
`"object"` and a required list is supplied as an array — empty included —
the projection is a fresh object holding exactly the listed keys with the
data's values (a key missing from the data appears as an own property
with value `undefined`, and an empty list yields the empty object); when
no array is supplied, or the data is not a truthy `typeof`-object, the
projection is the data unchanged. -/
theorem requiredData_characterisation (data : JSValue)
    (fs : List (String × JSValue)) (l : List String) :
    requiredData data none = data ∧
    ((truthy data && (typeofOp data == "object")) = false →
      requiredData data (some l) = data) ∧
    (l.Nodup →
      requiredData (.vObj fs) (some l) =
        .vObj (l.map (fun k => (k, getProp (.vObj fs) k)))) ∧
    requiredData (.vObj [("a", .vNum 1)]) (some ["a", "zz"]) =
      .vObj [("a", .vNum 1), ("zz", .vUndefined)] ∧
    requiredData (.vObj fs) (some []) = .vObj [] := by
  refine ⟨rfl, ?_, ?_, rfl, rfl⟩
  · intro h
    simp only [requiredData, h, Bool.false_eq_true, if_false]
  · intro hnd
    have hkeys : ((l.map (fun k => (k, getProp (.vObj fs) k))).map Prod.fst) = l := by
      simp [List.map_map, Function.comp_def]
    have hnd2 : ((l.map (fun k => (k, getProp (.vObj fs) k))).map Prod.fst).Nodup := by
      rw [hkeys]; exact hnd
    simp only [requiredData]
    rw [if_pos (by simp [truthy, typeofOp]), buildObj_nodup_id _ hnd2]

/-- Witness for the projection characterisation: unchanged scalar data,
a faithful two-key projection (with a missing key materialised as
`undefined`), and the empty-list projection, all at concrete inputs. -/
theorem requiredData_characterisation_witness :
    requiredData (.vNum 0) (some ["a"]) = .vNum 0 ∧
    requiredData (.vObj [("b", .vNum 2)]) (some ["b"]) = .vObj [("b", .vNum 2)] := by
  constructor
  · exact (requiredData_characterisation (.vNum 0) [] ["a"]).2.1 (by decide)
  · have h := (requiredData_characterisation (.vObj [("b", .vNum 2)])
      [("b", .vNum 2)] ["b"]).2.2.1 (by decide)
    simpa using h

/-! ## Association-list lookup lemmas -/

/-- First-defined-wins choice on optional lookups. -/
def orFirst (a b : Option JSValue) : Option JSValue :=
  match a with
  | some v => some v
  | none => b

theorem orFirst_none_left (b : Option JSValue) : orFirst none b = b := rfl

theorem orFirst_none_right (a : Option JSValue) : orFirst a none = a := by
  cases a <;> rfl

theorem orFirst_assoc (a b c : Option JSValue) :
    orFirst (orFirst a b) c = orFirst a (orFirst b c) := by
  cases a <;> rfl

theorem lookupField_cons (kv : String × JSValue) (rest : List (String × JSValue))
    (k : String) :
    lookupField (kv :: rest) k =
      if kv.1 == k then some kv.2 else lookupField rest k := by
  cases h : kv.1 == k <;> simp [lookupField, List.find?, h]

theorem lookupField_append (l1 l2 : List (String × JSValue)) (k : String) :
    lookupField (l1 ++ l2) k = orFirst (lookupField l1 k) (lookupField l2 k) := by
  induction l1 with
  | nil => simp [lookupField, orFirst]
  | cons kv rest ih =>
    rw [List.cons_append, lookupField_cons, lookupField_cons]
    cases h : kv.1 == k <;> simp [h, orFirst, ih]

theorem lookupField_eq_none_of_not_mem (fs : List (String × JSValue)) (k : String)
    (h : k ∉ fs.map Prod.fst) : lookupField fs k = none := by
  induction fs with
  | nil => rfl
  | cons kv rest ih =>
    rw [List.map_cons] at h
    rw [lookupField_cons]
    have hne : kv.1 ≠ k := fun he => h (he ▸ List.mem_cons_self _ _)
    simp only [beq_eq_false_iff_ne.mpr hne, if_false]
    exact ih (fun hm => h (List.mem_cons_of_mem _ hm))

theorem lookupField_isSome_of_mem (fs : List (String × JSValue)) (k : String)
    (h : k ∈ fs.map Prod.fst) : ∃ v, lookupField fs k = some v := by
  induction fs with
  | nil => simp at h
  | cons kv rest ih =>
    rw [lookupField_cons]
    cases hk : kv.1 == k with
    | true => exact ⟨kv.2, by simp⟩
    | false =>
      rw [List.map_cons, List.mem_cons] at h
      rcases h with h | h
      · exact absurd h.symm (by simpa using hk)
      · simpa using ih h

theorem lookupField_objSet (fs : List (String × JSValue)) (k : String)
    (v : JSValue) (k' : String) :
    lookupField (objSet fs k v) k' =
      if k == k' then some v else lookupField fs k' := by
  induction fs with
  | nil => cases h : k == k' <;> simp [objSet, lookupField, List.find?, h]
  | cons kv0 rest ih =>
    cases h0 : kv0.1 == k <;> cases h1 : k == k' <;>
      simp_all [objSet, lookupField_cons, beq_iff_eq]

theorem lookupField_reverse_of_nodup (fs : List (String × JSValue)) (k : String)
    (h : (fs.map Prod.fst).Nodup) :
    lookupField fs.reverse k = lookupField fs k := by
  induction fs with
  | nil => rfl
  | cons kv rest ih =>
    rw [List.map_cons, List.nodup_cons] at h
    rw [List.reverse_cons, lookupField_append, ih h.2, lookupField_cons]
    cases hk : kv.1 == k with
    | true =>
      have : k ∉ rest.map Prod.fst := by
        have he : kv.1 = k := by simpa using hk
        exact he ▸ h.1
      rw [lookupField_eq_none_of_not_mem rest k this]
      simp [orFirst, lookupField_cons, hk, lookupField]
    | false =>
      simp [lookupField_cons, hk, lookupField, orFirst_none_right]

theorem lookupField_foldl (l : List (String × JSValue)) :
    ∀ (init : List (String × JSValue)) (k : String),
    lookupField (l.foldl (fun acc kv => objSet acc kv.1 kv.2) init) k =
      orFirst (lookupField l.reverse k) (lookupField init k) := by
  induction l with
  | nil => intro init k; simp [lookupField, orFirst]
  | cons kv rest ih =>
    intro init k
    rw [List.foldl_cons, ih, List.reverse_cons, lookupField_append,
      orFirst_assoc, lookupField_objSet]
    cases hk : kv.1 == k <;>
      simp [lookupField_cons, lookupField, hk, orFirst]

theorem lookupField_buildObj_append (l1 l2 : List (String × JSValue)) (k : String)
    (h1 : (l1.map Prod.fst).Nodup) (h2 : (l2.map Prod.fst).Nodup) :
    lookupField (buildObj (l1 ++ l2)) k =
      orFirst (lookupField l2 k) (lookupField l1 k) := by
  unfold buildObj
  rw [lookupField_foldl, List.reverse_append, lookupField_append,
    lookupField_reverse_of_nodup _ _ h2, lookupField_reverse_of_nodup _ _ h1,
    show lookupField ([] : List (String × JSValue)) k = none from rfl,
    orFirst_none_right]

theorem mem_of_lookupField_eq_some (fs : List (String × JSValue)) (k : String)
    (v : JSValue) (h : lookupField fs k = some v) : k ∈ fs.map Prod.fst := by
  induction fs with
  | nil => simp [lookupField, List.find?] at h
  | cons kv rest ih =>
    rw [lookupField_cons] at h
    cases hk : kv.1 == k with
    | true =>
      rw [List.map_cons]
      exact (show kv.1 = k by simpa using hk) ▸ List.mem_cons_self _ _
    | false =>
      rw [hk, if_neg (by simp)] at h
      exact List.mem_cons_of_mem _ (ih h)

/-! ## C4: the reconciler -/

/-- C4: the value handed to the restore callback is the shallow merge
`{ ...fresh, ...stored }`: per top-level key the stored value wins when
the key is stored, keys unique to the fresh side are preserved, nothing is
merged deeply, and the spec's concrete example merges as stated. -/
theorem reconcile_shallow_merge (fsF fsS : List (String × JSValue))
    (hF : (fsF.map Prod.fst).Nodup) (hS : (fsS.map Prod.fst).Nodup)
    (p : HookProps) (stored : JSValue) (ans : Bool) :
    (∀ k, getProp (mergeSpread (.vObj fsF) (.vObj fsS)) k =
      if k ∈ fsS.map Prod.fst then getProp (.vObj fsS) k
      else getProp (.vObj fsF) k) ∧
    mergeSpread (.vObj [("a", .vNum 1), ("b", .vNum 2)])
        (.vObj [("b", .vNum 9), ("c", .vNum 3)]) =
      .vObj [("a", .vNum 1), ("b", .vNum 9), ("c", .vNum 3)] ∧
    ((restoreStateDeb p stored ans).callbackArg = none ∨
     (restoreStateDeb p stored ans).callbackArg =
       some (mergeSpread p.store.data stored)) := by
  refine ⟨?_, rfl, ?_⟩
  · intro k
    show (lookupField (buildObj (fsF ++ fsS)) k).getD .vUndefined = _
    rw [lookupField_buildObj_append _ _ _ hF hS]
    by_cases hk : k ∈ fsS.map Prod.fst
    · obtain ⟨v, hv⟩ := lookupField_isSome_of_mem fsS k hk
      rw [if_pos hk, hv]
      simp [orFirst, getProp, hv]
    · rw [if_neg hk, lookupField_eq_none_of_not_mem fsS k hk]
      simp [orFirst, getProp]
  · unfold restoreStateDeb
    cases h1 : triggerRestore p &&
        canRestore stored (requiredData p.store.data p.store.required) <;>
      cases ht : p.test <;> cases ans <;> simp [h1, ht]

/-- Witness for the reconciler characterisation at the spec's concrete
example: the stored value wins on the overlapping key `b` and the
fresh-only key `a` survives. -/
theorem reconcile_shallow_merge_witness :
    getProp (mergeSpread (.vObj [("a", .vNum 1), ("b", .vNum 2)])
      (.vObj [("b", .vNum 9), ("c", .vNum 3)])) "b" = .vNum 9 ∧
    getProp (mergeSpread (.vObj [("a", .vNum 1), ("b", .vNum 2)])
      (.vObj [("b", .vNum 9), ("c", .vNum 3)])) "a" = .vNum 1 := by
  have h := reconcile_shallow_merge [("a", .vNum 1), ("b", .vNum 2)]
    [("b", .vNum 9), ("c", .vNum 3)] (by decide) (by decide)
    cfgNoPrompt .vUndefined true
  constructor
  · rw [h.1 "b", if_pos (by decide)]
    rfl
  · rw [h.1 "a", if_neg (by decide)]
    rfl

/-! ## C10: the fresh side of the reconciliation -/

/-- Open configuration with data `{a:1, b:2}`, a required list that
projects `a` only, and the test flag set. -/
def cfgProjectA : HookProps :=
  { key := "k10", hasWhen := false, whenVal := .vUndefined, mode := "session",
    openFlag := true,
    store := { data := .vObj [("a", .vNum 1), ("b", .vNum 2)],
               required := some ["a"], hasWhen := false,
               whenVal := .vUndefined, title := "" },
    restore := plainRestore, test := true }

/-- C10: the fresh side of the reconciliation is the full `store.data`,
not its required-fields projection — a top-level key of the data that the
required list excludes (and that the stored value lacks) still appears in
the merged object with the data's value, and the callback only ever
receives `mergeSpread store.data stored`. -/
theorem fresh_side_is_full_data (p : HookProps) (stored : JSValue) (ans : Bool)
    (fs : List (String × JSValue)) (l : List String) (k : String)
    (hdata : p.store.data = .vObj fs)
    (_hreq : p.store.required = some l) (_hne : l ≠ []) (_hkl : k ∉ l)
    (hF : (fs.map Prod.fst).Nodup)
    (hk : k ∈ fs.map Prod.fst)
    (hnotS : k ∉ (spreadFields stored).map Prod.fst)
    (hSnd : ((spreadFields stored).map Prod.fst).Nodup) :
    ((restoreStateDeb p stored ans).callbackArg = none ∨
     (restoreStateDeb p stored ans).callbackArg =
       some (mergeSpread p.store.data stored)) ∧
    getProp (mergeSpread p.store.data stored) k = getProp p.store.data k ∧
    (∃ ms, mergeSpread p.store.data stored = .vObj ms ∧ k ∈ ms.map Prod.fst) := by
  have hlook : lookupField (buildObj (fs ++ spreadFields stored)) k =
      lookupField fs k := by
    rw [lookupField_buildObj_append _ _ _ hF hSnd,
      lookupField_eq_none_of_not_mem _ _ hnotS, orFirst_none_left]
  refine ⟨?_, ?_, ?_⟩
  · unfold restoreStateDeb
    cases h1 : triggerRestore p &&
        canRestore stored (requiredData p.store.data p.store.required) <;>
      cases ht : p.test <;> cases ans <;> simp [h1, ht]
  · rw [hdata]
    show (lookupField (buildObj (fs ++ spreadFields stored)) k).getD .vUndefined = _
    rw [hlook]
    rfl
  · refine ⟨buildObj (fs ++ spreadFields stored), by rw [hdata]; rfl, ?_⟩
    obtain ⟨v, hv⟩ := lookupField_isSome_of_mem fs k hk
    exact mem_of_lookupField_eq_some _ _ v (hlook ▸ hv)

/-- Witness for C10: with required list `["a"]`, the excluded data key
`b` survives reconciliation with stored value `{a:9}`. -/
theorem fresh_side_is_full_data_witness :
    getProp (mergeSpread cfgProjectA.store.data (.vObj [("a", .vNum 9)])) "b" =
      getProp cfgProjectA.store.data "b" :=
  (fresh_side_is_full_data cfgProjectA (.vObj [("a", .vNum 9)]) true
    [("a", .vNum 1), ("b", .vNum 2)] ["a"] "b" rfl rfl (by decide) (by decide)
    (by decide) (by decide) (by decide) (by decide)).2.1

/-! ## C8: failure semantics -/

/-- Open configuration keyed `"form"`. -/
def cfgFormKey : HookProps :=
  { key := "form", hasWhen := false, whenVal := .vUndefined, mode := "session",
    openFlag := true,
    store := { data := .vObj [("name", .vStr "x")], required := none,
               hasWhen := false, whenVal := .vUndefined, title := "" },
    restore := plainRestore, test := false }

/-- C8: a backend throw is caught at the instance boundary and the
instance degrades to inert with nothing propagated (the run's type is
total), but the log line's tag is
`` `useRestoreState-${storageHookKey}` `` — the template literal
stringifies the ref object, so the tag is the constant
`"useRestoreState-[object Object]"`, independent of the instance's key,
and the key `"form"` never reaches the log. -/
theorem backend_throw_log_evaluation :
    (useRestoreStateRun cfgFormKey (.error "QuotaExceededError") true).inert = true ∧
    (useRestoreStateRun cfgFormKey (.error "QuotaExceededError") true).errorLog =
      some ("useRestoreState-[object Object]", "QuotaExceededError") ∧
    (∀ r : MutableRef, catchLogTag r = "useRestoreState-[object Object]") ∧
    catchLogTag ⟨"form"⟩ = catchLogTag ⟨"a-very-different-key"⟩ := by
  exact ⟨rfl, rfl, fun r => rfl, rfl⟩
